import Mathlib

/-!
Shallow embedding of the minilm-builder pipeline stages
(`download.py`, `convert.py`, `optimize.py`, `quantize.py`, `verify.py`).

Paths are component lists (an absolute path carries a leading empty
component, so /tmp/c is ["", "tmp", "c"]).  The filesystem is a store of
files (path to byte list) plus the list of created directories.  Every
external library call is a parameter of the run: it either succeeds
(returning the data or files the library produces) or raises, carrying
the exception message, mirroring Python exception flow.  Emitted JSON
records are association lists of key/value pairs kept in emission
order; the process exit status is 0 or 1 exactly as in the scripts.
-/

abbrev PathT := List String

def pathStr (p : PathT) : String := String.intercalate "/" p

inductive JVal where
  | str : String → JVal
  | natList : List Nat → JVal
  | rat : Rat → JVal
  | path : PathT → JVal
deriving DecidableEq

abbrev Record := List (String × JVal)

def errRec (e : String) : Record := [("error", JVal.str e)]

def stRec (t : String) : Record := [("status", JVal.str t)]

def hasKey (r : Record) (k : String) : Bool := r.any (fun kv => kv.1 == k)

def isComplete (r : Record) : Bool := r.lookup "status" == some (JVal.str "complete")

def isTerminal (r : Record) : Bool := hasKey r "error" || isComplete r

structure FS where
  files : List (PathT × List Nat)
  dirs : List PathT
deriving DecidableEq

def FS.read (fs : FS) (p : PathT) : Option (List Nat) := fs.files.lookup p

def FS.write (fs : FS) (p : PathT) (b : List Nat) : FS :=
  { fs with files := (p, b) :: fs.files }

def FS.mkdirAll (fs : FS) (p : PathT) : FS :=
  { fs with dirs := (List.range p.length).map (fun i => p.take (i + 1)) ++ fs.dirs }

def FS.writeAll (fs : FS) (dir : PathT) (fl : List (String × List Nat)) : FS :=
  fl.foldl (fun a fb => a.write (dir ++ [fb.1]) fb.2) fs

/-- The sidecar copy loop shared (textually) by `optimize.py` and
`quantize.py`: for each name in the manifest, if the file exists in the
source directory its bytes are copied to the destination directory. -/
def copySidecars (manifest : List String) (srcDir dstDir : PathT) (fs : FS) : FS :=
  manifest.foldl (fun a f =>
    match a.read (srcDir ++ [f]) with
    | some b => a.write (dstDir ++ [f]) b
    | none => a) fs

/-- Manifest literal of `optimize.py`, line 43. -/
def optimizeSidecars : List String :=
  ["config.json", "tokenizer.json", "tokenizer_config.json", "special_tokens_map.json", "vocab.txt"]

/-- Manifest literal of `quantize.py`, line 42. -/
def quantizeSidecars : List String :=
  ["tokenizer.json", "tokenizer_config.json", "special_tokens_map.json", "vocab.txt", "config.json"]

structure Outcome where
  records : List Record
  exitCode : Nat
  fs : FS
deriving DecidableEq

/-- `download.py`: guarded transformers import, then the try block
downloading and saving model and tokenizer into the cache directory. -/
structure DownloadEnv where
  transformersAvailable : Bool
  autoModel : Except String Unit
  autoTokenizer : Except String Unit
  saveModel : Except String (List (String × List Nat))
  saveTokenizer : Except String (List (String × List Nat))

def download (env : DownloadEnv) (modelName : String) (cacheDir : PathT) (fs : FS) : Outcome :=
  if !env.transformersAvailable then
    ⟨[errRec "transformers not installed"], 1, fs⟩
  else
    match env.autoModel with
    | .error e => ⟨[stRec "downloading_model", errRec e], 1, fs⟩
    | .ok _ =>
      match env.autoTokenizer with
      | .error e => ⟨[stRec "downloading_model", stRec "downloading_tokenizer", errRec e], 1, fs⟩
      | .ok _ =>
        let fs1 := fs.mkdirAll cacheDir
        match env.saveModel with
        | .error e =>
            ⟨[stRec "downloading_model", stRec "downloading_tokenizer", stRec "saving_model",
              errRec e], 1, fs1⟩
        | .ok mf =>
          let fs2 := fs1.writeAll cacheDir mf
          match env.saveTokenizer with
          | .error e =>
              ⟨[stRec "downloading_model", stRec "downloading_tokenizer", stRec "saving_model",
                stRec "saving_tokenizer", errRec e], 1, fs2⟩
          | .ok tf =>
              ⟨[stRec "downloading_model", stRec "downloading_tokenizer", stRec "saving_model",
                stRec "saving_tokenizer",
                [("status", JVal.str "complete"), ("cache_dir", JVal.path cacheDir)]],
               0, fs2.writeAll cacheDir tf⟩

/-- `convert.py`: guarded optimum import, output directory creation,
one delegated `main_export` call writing the export files. -/
structure ConvertEnv where
  optimumAvailable : Bool
  mainExport : Except String (List (String × List Nat))

def convert (env : ConvertEnv) (cacheDir outputDir : PathT) (fs : FS) : Outcome :=
  if !env.optimumAvailable then
    ⟨[errRec "optimum[exporters] not installed"], 1, fs⟩
  else
    let fs1 := fs.mkdirAll outputDir
    match env.mainExport with
    | .error e => ⟨[stRec "exporting_to_onnx", errRec e], 1, fs1⟩
    | .ok ef =>
        ⟨[stRec "exporting_to_onnx",
          [("status", JVal.str "complete"), ("output_dir", JVal.path outputDir)]],
         0, fs1.writeAll outputDir ef⟩

/-- `optimize.py`: guarded onnxruntime import, delegated
`optimize_model`, save to the output path, sidecar copy loop. -/
structure OptimizeEnv where
  onnxruntimeAvailable : Bool
  optimizeModel : Except String Unit
  saveModelToFile : Except String (List Nat)

def optimize (env : OptimizeEnv) (modelPath outputPath : PathT)
    (numHeads hiddenSize : Int) (fs : FS) : Outcome :=
  if !env.onnxruntimeAvailable then
    ⟨[errRec "onnxruntime not installed"], 1, fs⟩
  else
    match env.optimizeModel with
    | .error e => ⟨[stRec "loading_model", stRec "optimizing", errRec e], 1, fs⟩
    | .ok _ =>
      let fs1 := fs.mkdirAll outputPath.dropLast
      match env.saveModelToFile with
      | .error e => ⟨[stRec "loading_model", stRec "optimizing", stRec "saving", errRec e], 1, fs1⟩
      | .ok ob =>
          ⟨[stRec "loading_model", stRec "optimizing", stRec "saving",
            [("status", JVal.str "complete"), ("output_path", JVal.path outputPath)]],
           0, copySidecars optimizeSidecars modelPath.dropLast outputPath.dropLast
                (fs1.write outputPath ob)⟩

/-- `quantize.py`: guarded onnxruntime import, existence check for
model.onnx, delegated `quantize_dynamic`, sidecar copy loop. -/
structure QuantizeEnv where
  onnxruntimeAvailable : Bool
  quantizeDynamic : Except String (List Nat)

def quantize (env : QuantizeEnv) (modelDir outputDir : PathT) (fs : FS) : Outcome :=
  if !env.onnxruntimeAvailable then
    ⟨[errRec "onnxruntime not installed"], 1, fs⟩
  else
    let modelPath := modelDir ++ ["model.onnx"]
    if !(fs.read modelPath).isSome then
      ⟨[stRec "loading_model", errRec ("Model not found: " ++ pathStr modelPath)], 1, fs⟩
    else
      let fs1 := fs.mkdirAll outputDir
      match env.quantizeDynamic with
      | .error e => ⟨[stRec "loading_model", stRec "quantizing", errRec e], 1, fs1⟩
      | .ok qb =>
          ⟨[stRec "loading_model", stRec "quantizing",
            [("status", JVal.str "complete"), ("output_dir", JVal.path outputDir)]],
           0, copySidecars quantizeSidecars modelDir outputDir
                (fs1.write (outputDir ++ ["model_quantized.onnx"]) qb)⟩

/-- `verify.py`: the numpy import on line 5 is OUTSIDE the guarded try
block of lines 7-12, so a missing numpy aborts the process with an
uncaught ImportError: nonzero exit and no record on the output channel.
The guarded imports, session creation, tokenizer load, tokenization and
inference are each delegated calls; the inference result is summarized
by the library as (shape, mean, std). -/
structure VerifyEnv where
  numpyAvailable : Bool
  ortAndTransformersAvailable : Bool
  inferenceSession : Except String Unit
  autoTokenizer : Except String Unit
  tokenize : Except String Unit
  sessionRun : Except String (List Nat × Rat × Rat)

def verify (env : VerifyEnv) (modelPath tokenizerPath : PathT)
    (textArg : Option String) (fs : FS) : Outcome :=
  if !env.numpyAvailable then
    ⟨[], 1, fs⟩
  else if !env.ortAndTransformersAvailable then
    ⟨[errRec "onnxruntime or transformers not installed"], 1, fs⟩
  else
    let testText := textArg.getD "This is a test"
    match env.inferenceSession with
    | .error e => ⟨[stRec "loading_session", errRec e], 1, fs⟩
    | .ok _ =>
    match env.autoTokenizer with
    | .error e => ⟨[stRec "loading_session", stRec "loading_tokenizer", errRec e], 1, fs⟩
    | .ok _ =>
    match env.tokenize with
    | .error e =>
        ⟨[stRec "loading_session", stRec "loading_tokenizer", stRec "tokenizing", errRec e], 1, fs⟩
    | .ok _ =>
    match env.sessionRun with
    | .error e =>
        ⟨[stRec "loading_session", stRec "loading_tokenizer", stRec "tokenizing",
          stRec "running_inference", errRec e], 1, fs⟩
    | .ok out =>
        ⟨[stRec "loading_session", stRec "loading_tokenizer", stRec "tokenizing",
          stRec "running_inference",
          [("status", JVal.str "complete"), ("test_text", JVal.str testText),
           ("output_shape", JVal.natList out.1), ("output_mean", JVal.rat out.2.1),
           ("output_std", JVal.rat out.2.2)]],
         0, fs⟩

/-- The record-sequence discipline of one stage run: exactly one
terminal record, the terminal record is last, and the exit status is
zero exactly when the terminal record is the complete record. -/
def stageRunOk (o : Outcome) : Bool :=
  (o.records.filter (fun r => isTerminal r)).length == 1 &&
  (match o.records.getLast? with
   | some r => isTerminal r && (decide (o.exitCode = 0) == isComplete r)
   | none => false)

/-! ### Filesystem lemmas -/

theorem FS.read_write_self (fs : FS) (p : PathT) (b : List Nat) :
    (fs.write p b).read p = some b := by
  simp [FS.read, FS.write]

theorem FS.read_write_ne (fs : FS) {p q : PathT} (b : List Nat) (h : p ≠ q) :
    (fs.write q b).read p = fs.read p := by
  have hb : (p == q) = false := beq_eq_false_iff_ne.mpr h
  simp [FS.read, FS.write, List.lookup, hb]

theorem FS.read_mkdirAll (fs : FS) (d p : PathT) : (fs.mkdirAll d).read p = fs.read p := rfl

theorem FS.writeAll_nil (fs : FS) (dir : PathT) : fs.writeAll dir [] = fs := rfl

theorem FS.writeAll_cons (fs : FS) (dir : PathT) (g : String × List Nat)
    (t : List (String × List Nat)) :
    fs.writeAll dir (g :: t) = (fs.write (dir ++ [g.1]) g.2).writeAll dir t := rfl

theorem append_singleton_inj {s d : PathT} {f g : String}
    (h : s ++ [f] = d ++ [g]) : s = d ∧ f = g := by
  have h1 : s = d := by
    have h2 := congrArg List.dropLast h
    simpa using h2
  subst h1
  have h3 := List.append_cancel_left h
  simp only [List.cons.injEq, and_true] at h3
  exact ⟨rfl, h3⟩

theorem FS.read_writeAll_outside (fl : List (String × List Nat)) (dir : PathT) (p : PathT)
    (hp : ∀ f ∈ fl, p ≠ dir ++ [f.1]) :
    ∀ fs : FS, (fs.writeAll dir fl).read p = fs.read p := by
  induction fl with
  | nil => intro fs; rfl
  | cons g t ih =>
    intro fs
    rw [FS.writeAll_cons, ih (fun f hf => hp f (List.mem_cons_of_mem _ hf)),
      FS.read_write_ne _ _ (hp g (List.mem_cons_self _ _))]

theorem copySidecars_nil (s d : PathT) (fs : FS) : copySidecars [] s d fs = fs := rfl

theorem copySidecars_cons (g : String) (t : List String) (s d : PathT) (fs : FS) :
    copySidecars (g :: t) s d fs =
      copySidecars t s d
        (match fs.read (s ++ [g]) with
         | some b => fs.write (d ++ [g]) b
         | none => fs) := rfl

theorem copySidecars_read_outside (m : List String) (s d : PathT) (p : PathT)
    (hp : ∀ f ∈ m, p ≠ d ++ [f]) :
    ∀ fs : FS, (copySidecars m s d fs).read p = fs.read p := by
  induction m with
  | nil => intro fs; rfl
  | cons g t ih =>
    intro fs
    rw [copySidecars_cons]
    cases hr : fs.read (s ++ [g]) with
    | none =>
        simp only [hr]
        exact ih (fun f hf => hp f (List.mem_cons_of_mem _ hf)) fs
    | some b =>
        simp only [hr]
        rw [ih (fun f hf => hp f (List.mem_cons_of_mem _ hf)),
          FS.read_write_ne _ _ (hp g (List.mem_cons_self _ _))]

theorem copySidecars_read_mem (s d : PathT) (f : String) (hsd : s ≠ d) :
    ∀ (m : List String) (fs : FS), f ∈ m → m.Nodup →
      (copySidecars m s d fs).read (d ++ [f]) =
        (fs.read (s ++ [f])).elim (fs.read (d ++ [f])) some := by
  intro m
  induction m with
  | nil => intro fs hf _; cases hf
  | cons g t ih =>
    intro fs hf hnd
    rw [copySidecars_cons]
    rcases List.mem_cons.mp hf with hfg | hft
    · subst hfg
      have hft : f ∉ t := (List.nodup_cons.mp hnd).1
      have houts : ∀ x ∈ t, d ++ [f] ≠ d ++ [x] := by
        intro x hx heq
        exact hft ((append_singleton_inj heq).2 ▸ hx)
      cases hr : fs.read (s ++ [f]) with
      | none =>
          simp only [hr]
          rw [copySidecars_read_outside t s d _ houts fs]
          rfl
      | some b =>
          simp only [hr]
          rw [copySidecars_read_outside t s d _ houts, FS.read_write_self]
          rfl
    · have hgf : g ≠ f := fun h => (List.nodup_cons.mp hnd).1 (h ▸ hft)
      have hsf : s ++ [f] ≠ d ++ [g] := fun heq => hsd (append_singleton_inj heq).1
      have hdf : d ++ [f] ≠ d ++ [g] := fun heq => hgf ((append_singleton_inj heq).2).symm
      cases hr : fs.read (s ++ [g]) with
      | none =>
          simp only [hr]
          exact ih fs hft (List.nodup_cons.mp hnd).2
      | some b =>
          simp only [hr]
          rw [ih _ hft (List.nodup_cons.mp hnd).2,
            FS.read_write_ne _ _ hsf, FS.read_write_ne _ _ hdf]

/-! ### Path lemmas: `leads d p` states that directory `d` is an
initial segment of the path `p`. -/

def leads (d p : PathT) : Prop := p.take d.length = d

instance (d p : PathT) : Decidable (leads d p) := by unfold leads; infer_instance

theorem take_append_le {l1 l2 : List String} {n : Nat} (h : n ≤ l1.length) :
    (l1 ++ l2).take n = l1.take n := by
  conv_lhs => rw [← List.take_append_drop n l1, List.append_assoc]
  exact List.take_left' (by simp [Nat.min_eq_left h])

theorem leads_ne_concat {inDir outDir p : PathT} {f : String}
    (hno : ¬ leads inDir outDir) (hp : leads inDir p) (hne : p ≠ inDir) :
    p ≠ outDir ++ [f] := by
  intro hpe
  subst hpe
  by_cases hl : inDir.length ≤ outDir.length
  · exact hno (by unfold leads at hp ⊢; rwa [take_append_le hl] at hp)
  · push_neg at hl
    have hlen : (outDir ++ [f]).length ≤ inDir.length := by
      simp only [List.length_append, List.length_singleton]
      omega
    unfold leads at hp
    rw [List.take_of_length_le hlen] at hp
    exact hne hp

theorem leads_ne_path {inDir op p : PathT}
    (hno : ¬ leads inDir op.dropLast) (hp : leads inDir p) (hne : p ≠ inDir) :
    p ≠ op := by
  rcases eq_or_ne op [] with rfl | hop
  · intro hpe
    subst hpe
    have h0 : inDir = [] := by simpa [leads] using hp
    exact hne h0.symm
  · have h2 : p ≠ op.dropLast ++ [op.getLast hop] := leads_ne_concat hno hp hne
    rwa [List.dropLast_append_getLast hop] at h2

/-! ### Presence monotonicity: no stage ever deletes a file -/

theorem FS.isSome_read_write (fs : FS) (q p : PathT) (b : List Nat)
    (h : (fs.read p).isSome) : ((fs.write q b).read p).isSome := by
  by_cases hpq : p = q
  · subst hpq; rw [FS.read_write_self]; rfl
  · rwa [FS.read_write_ne _ _ hpq]

theorem FS.isSome_read_writeAll (fl : List (String × List Nat)) (dir p : PathT) :
    ∀ fs : FS, (fs.read p).isSome → ((fs.writeAll dir fl).read p).isSome := by
  induction fl with
  | nil => intro fs h; exact h
  | cons g t ih =>
    intro fs h
    rw [FS.writeAll_cons]
    exact ih _ (FS.isSome_read_write _ _ _ _ h)

theorem isSome_read_copySidecars (m : List String) (s d p : PathT) :
    ∀ fs : FS, (fs.read p).isSome → ((copySidecars m s d fs).read p).isSome := by
  induction m with
  | nil => intro fs h; exact h
  | cons g t ih =>
    intro fs h
    rw [copySidecars_cons]
    cases hr : fs.read (s ++ [g]) with
    | none => simp only [hr]; exact ih _ h
    | some b => simp only [hr]; exact ih _ (FS.isSome_read_write _ _ _ _ h)

theorem download_preserves_files (env : DownloadEnv) (mn : String) (cd : PathT) (fs : FS)
    (p : PathT) (h : (fs.read p).isSome) : ((download env mn cd fs).fs.read p).isSome := by
  obtain ⟨a, b, c, d, e⟩ := env
  cases a <;> cases b <;> cases c <;> cases d <;> cases e <;>
    first
      | exact h
      | exact FS.isSome_read_writeAll _ _ _ _ h
      | exact FS.isSome_read_writeAll _ _ _ _ (FS.isSome_read_writeAll _ _ _ _ h)

theorem convert_preserves_files (env : ConvertEnv) (cd od : PathT) (fs : FS)
    (p : PathT) (h : (fs.read p).isSome) : ((convert env cd od fs).fs.read p).isSome := by
  obtain ⟨a, b⟩ := env
  cases a <;> cases b <;>
    first
      | exact h
      | exact FS.isSome_read_writeAll _ _ _ _ h

theorem optimize_preserves_files (env : OptimizeEnv) (mp op : PathT) (nh hs : Int) (fs : FS)
    (p : PathT) (h : (fs.read p).isSome) :
    ((optimize env mp op nh hs fs).fs.read p).isSome := by
  obtain ⟨a, b, c⟩ := env
  cases a <;> cases b <;> cases c <;>
    first
      | exact h
      | exact isSome_read_copySidecars _ _ _ _ _ (FS.isSome_read_write _ _ _ _ h)

theorem quantize_preserves_files (env : QuantizeEnv) (md od : PathT) (fs : FS)
    (p : PathT) (h : (fs.read p).isSome) : ((quantize env md od fs).fs.read p).isSome := by
  obtain ⟨a, q⟩ := env
  cases a
  · exact h
  · cases hm : (fs.read (md ++ ["model.onnx"])).isSome
    · simp only [quantize, hm]
      exact h
    · cases q <;> simp only [quantize, hm] <;>
        first
          | exact h
          | exact isSome_read_copySidecars _ _ _ _ _ (FS.isSome_read_write _ _ _ _ h)

theorem verify_preserves_files (env : VerifyEnv) (mp tp : PathT) (t : Option String) (fs : FS)
    (p : PathT) (h : (fs.read p).isSome) : ((verify env mp tp t fs).fs.read p).isSome := by
  obtain ⟨a, b, c, d, e, f⟩ := env
  cases a <;> cases b <;> cases c <;> cases d <;> cases e <;> cases f <;> exact h

/-! ### Success-branch filesystem shape and sidecar reads -/

theorem quantize_success_fs (qb : List Nat) (md od : PathT) (fs : FS)
    (hm : (fs.read (md ++ ["model.onnx"])).isSome = true) :
    (quantize ⟨true, .ok qb⟩ md od fs).fs =
      copySidecars quantizeSidecars md od
        ((fs.mkdirAll od).write (od ++ ["model_quantized.onnx"]) qb) := by
  simp only [quantize, hm, Bool.not_true, Bool.false_eq_true, if_false]

theorem optimize_success_fs (ob : List Nat) (mp op : PathT) (nh hs : Int) (fs : FS) :
    (optimize ⟨true, .ok (), .ok ob⟩ mp op nh hs fs).fs =
      copySidecars optimizeSidecars mp.dropLast op.dropLast
        ((fs.mkdirAll op.dropLast).write op ob) := rfl

theorem quantize_success_read_sidecar (qb : List Nat) (md od : PathT) (fs : FS) (f : String)
    (hsd : md ≠ od) (hf : f ∈ quantizeSidecars)
    (hm : (fs.read (md ++ ["model.onnx"])).isSome = true) :
    (quantize ⟨true, .ok qb⟩ md od fs).fs.read (od ++ [f]) =
      (fs.read (md ++ [f])).elim (fs.read (od ++ [f])) some := by
  have hnq : f ≠ "model_quantized.onnx" := by
    intro hfe
    subst hfe
    revert hf
    decide
  have hnd : quantizeSidecars.Nodup := by decide
  rw [quantize_success_fs qb md od fs hm,
    copySidecars_read_mem md od f hsd quantizeSidecars _ hf hnd,
    FS.read_write_ne _ _ (fun heq => hsd (append_singleton_inj heq).1),
    FS.read_write_ne _ _ (fun heq => hnq (append_singleton_inj heq).2),
    FS.read_mkdirAll, FS.read_mkdirAll]

theorem optimize_success_read_sidecar (ob : List Nat) (mp op : PathT) (nh hs : Int)
    (fs : FS) (f : String)
    (hsd : mp.dropLast ≠ op.dropLast) (hf : f ∈ optimizeSidecars)
    (hop : op ≠ op.dropLast ++ [f]) :
    (optimize ⟨true, .ok (), .ok ob⟩ mp op nh hs fs).fs.read (op.dropLast ++ [f]) =
      (fs.read (mp.dropLast ++ [f])).elim (fs.read (op.dropLast ++ [f])) some := by
  have hmp : mp.dropLast ++ [f] ≠ op := by
    intro heq
    apply hsd
    rw [← heq, List.dropLast_concat]
  have hnd : optimizeSidecars.Nodup := by decide
  rw [optimize_success_fs ob mp op nh hs fs,
    copySidecars_read_mem mp.dropLast op.dropLast f hsd optimizeSidecars _ hf hnd,
    FS.read_write_ne _ _ hmp,
    FS.read_write_ne _ _ (fun heq => hop heq.symm),
    FS.read_mkdirAll, FS.read_mkdirAll]

/-! ### Claims -/

/-- C1 counterexample: a Verify run with numpy unavailable (the
numpy import of `verify.py` line 5 sits outside the guard) emits
no record at all, so its record sequence does not contain exactly one
terminal record, refuting the claim as stated over all stage runs. -/
theorem c1_counterexample :
    stageRunOk (verify ⟨false, true, .ok (), .ok (), .ok (), .ok ([1], 0, 1)⟩
      ["m"] ["t"] none ⟨[], []⟩) = false := rfl

/-- C1 (amended): for every run of the Download, Export, Optimize and
Quantize stages on any inputs, and every Verify run in which numpy is
present, the emitted record sequence contains exactly one terminal
record (`complete` or `error`), the terminal record is the last record
emitted, and the exit status is zero exactly when the terminal record
is the success record; a Verify run with numpy unavailable instead
emits no record at all and exits nonzero. -/
theorem c1_terminal_discipline :
    (∀ env mn cd fs, stageRunOk (download env mn cd fs) = true) ∧
    (∀ env cd od fs, stageRunOk (convert env cd od fs) = true) ∧
    (∀ env mp op nh hs fs, stageRunOk (optimize env mp op nh hs fs) = true) ∧
    (∀ env md od fs, stageRunOk (quantize env md od fs) = true) ∧
    (∀ (env : VerifyEnv) mp tp t fs,
      stageRunOk (verify { env with numpyAvailable := true } mp tp t fs) = true) ∧
    (∀ (env : VerifyEnv) mp tp t fs,
      (verify { env with numpyAvailable := false } mp tp t fs).records = [] ∧
      (verify { env with numpyAvailable := false } mp tp t fs).exitCode = 1) := by
  refine ⟨?_, ?_, ?_, ?_, ?_, ?_⟩
  · intro env mn cd fs
    obtain ⟨a, b, c, d, e⟩ := env
    cases a <;> cases b <;> cases c <;> cases d <;> cases e <;> rfl
  · intro env cd od fs
    obtain ⟨a, b⟩ := env
    cases a <;> cases b <;> rfl
  · intro env mp op nh hs fs
    obtain ⟨a, b, c⟩ := env
    cases a <;> cases b <;> cases c <;> rfl
  · intro env md od fs
    obtain ⟨a, q⟩ := env
    cases a
    · rfl
    · cases hm : (fs.read (md ++ ["model.onnx"])).isSome
      · simp only [quantize, hm]
        rfl
      · cases q <;> simp only [quantize, hm] <;> rfl
  · intro env mp tp t fs
    obtain ⟨n, o, c, d, e, f⟩ := env
    cases o <;> cases c <;> cases d <;> cases e <;> cases f <;> rfl
  · intro env mp tp t fs
    obtain ⟨n, o, c, d, e, f⟩ := env
    exact ⟨rfl, rfl⟩

/-- C2: if the Quantize input directory has no `model.onnx`, the stage
emits a terminal record with an `error` key, exits nonzero, and leaves
the filesystem untouched: in particular `model_quantized.onnx` is never
created in the output directory. -/
theorem c2_quantize_missing_model (q : Except String (List Nat)) (md od : PathT) (fs : FS)
    (h : fs.read (md ++ ["model.onnx"]) = none) :
    (quantize ⟨true, q⟩ md od fs).records.getLast? =
      some (errRec ("Model not found: " ++ pathStr (md ++ ["model.onnx"]))) ∧
    hasKey (errRec ("Model not found: " ++ pathStr (md ++ ["model.onnx"]))) "error" = true ∧
    (quantize ⟨true, q⟩ md od fs).exitCode = 1 ∧
    (quantize ⟨true, q⟩ md od fs).fs = fs ∧
    (quantize ⟨true, q⟩ md od fs).fs.read (od ++ ["model_quantized.onnx"]) =
      fs.read (od ++ ["model_quantized.onnx"]) := by
  have hm : (fs.read (md ++ ["model.onnx"])).isSome = false := by rw [h]; rfl
  refine ⟨?_, rfl, ?_, ?_, ?_⟩ <;> simp only [quantize, hm] <;> rfl

/-- C2 witness: a concrete empty filesystem, so `model.onnx` is absent
from the input directory, instantiating every hypothesis of
`c2_quantize_missing_model`. -/
theorem c2_witness :
    (FS.read ⟨[], []⟩ (["d"] ++ ["model.onnx"]) = none) ∧
    ((quantize ⟨true, Except.ok [1]⟩ ["d"] ["q"] ⟨[], []⟩).records.getLast? =
      some (errRec ("Model not found: " ++ pathStr (["d"] ++ ["model.onnx"]))) ∧
    hasKey (errRec ("Model not found: " ++ pathStr (["d"] ++ ["model.onnx"]))) "error" = true ∧
    (quantize ⟨true, Except.ok [1]⟩ ["d"] ["q"] ⟨[], []⟩).exitCode = 1 ∧
    (quantize ⟨true, Except.ok [1]⟩ ["d"] ["q"] ⟨[], []⟩).fs = ⟨[], []⟩ ∧
    (quantize ⟨true, Except.ok [1]⟩ ["d"] ["q"] ⟨[], []⟩).fs.read
      (["q"] ++ ["model_quantized.onnx"]) =
      FS.read ⟨[], []⟩ (["q"] ++ ["model_quantized.onnx"])) :=
  ⟨rfl, c2_quantize_missing_model (Except.ok [1]) ["d"] ["q"] ⟨[], []⟩ rfl⟩

/-- C3 counterexample: numpy is a required external numerical library of
the Verify stage, yet its import (`verify.py` line 5) is outside the
guarded try block: with numpy unavailable the run emits zero records
(so not exactly one record containing an `error` key) and exits 1. -/
theorem c3_counterexample :
    (verify ⟨false, true, .ok (), .ok (), .ok (), .ok ([1], 0, 1)⟩ ["m"] ["t"] none
      ⟨[], []⟩).records = [] ∧
    (verify ⟨false, true, .ok (), .ok (), .ok (), .ok ([1], 0, 1)⟩ ["m"] ["t"] none
      ⟨[], []⟩).exitCode = 1 := ⟨rfl, rfl⟩

/-- C3 (amended): for every stage, if a library of its guarded import
block is unavailable, the stage emits exactly one record, an `error`
record with the stage's human-readable message, exits nonzero, and the
filesystem (files and directories alike) is completely untouched; the
check happens at entry, before any status record.  The one exception is
Verify's unguarded numpy import: with numpy unavailable Verify exits
nonzero, touches nothing, but emits no record at all. -/
theorem c3_dependency_guard :
    (∀ (env : DownloadEnv) mn cd fs, download { env with transformersAvailable := false } mn cd fs =
      ⟨[errRec "transformers not installed"], 1, fs⟩) ∧
    (∀ (env : ConvertEnv) cd od fs, convert { env with optimumAvailable := false } cd od fs =
      ⟨[errRec "optimum[exporters] not installed"], 1, fs⟩) ∧
    (∀ (env : OptimizeEnv) mp op nh hs fs,
      optimize { env with onnxruntimeAvailable := false } mp op nh hs fs =
      ⟨[errRec "onnxruntime not installed"], 1, fs⟩) ∧
    (∀ (env : QuantizeEnv) md od fs, quantize { env with onnxruntimeAvailable := false } md od fs =
      ⟨[errRec "onnxruntime not installed"], 1, fs⟩) ∧
    (∀ (env : VerifyEnv) mp tp t fs,
      verify { env with numpyAvailable := true, ortAndTransformersAvailable := false } mp tp t fs =
      ⟨[errRec "onnxruntime or transformers not installed"], 1, fs⟩) ∧
    (∀ (env : VerifyEnv) mp tp t fs,
      verify { env with numpyAvailable := false } mp tp t fs = ⟨[], 1, fs⟩) := by
  refine ⟨?_, ?_, ?_, ?_, ?_, ?_⟩
  · intro env mn cd fs
    obtain ⟨a, b, c, d, e⟩ := env
    rfl
  · intro env cd od fs
    obtain ⟨a, b⟩ := env
    rfl
  · intro env mp op nh hs fs
    obtain ⟨a, b, c⟩ := env
    rfl
  · intro env md od fs
    obtain ⟨a, q⟩ := env
    rfl
  · intro env mp tp t fs
    obtain ⟨n, o, c, d, e, f⟩ := env
    rfl
  · intro env mp tp t fs
    obtain ⟨n, o, c, d, e, f⟩ := env
    rfl

/-- C4: on a successful Optimize or Quantize run into a destination
directory disjoint from the source directory and initially free of
manifest files, each manifest file present in the source directory is
copied byte-identically into the destination, each absent one is
silently skipped, and no path outside the manifest (other than the
stage's primary artifact) is written: the manifest files present in
the destination are exactly those present in the source. -/
theorem c4_sidecar_propagation :
    (∀ (qb : List Nat) (md od : PathT) (fs : FS),
      md ≠ od →
      (∀ g ∈ quantizeSidecars, fs.read (od ++ [g]) = none) →
      (fs.read (md ++ ["model.onnx"])).isSome = true →
      ((∀ f ∈ quantizeSidecars,
          (quantize ⟨true, .ok qb⟩ md od fs).fs.read (od ++ [f]) = fs.read (md ++ [f])) ∧
       (∀ p, (∀ f ∈ quantizeSidecars, p ≠ od ++ [f]) → p ≠ od ++ ["model_quantized.onnx"] →
          (quantize ⟨true, .ok qb⟩ md od fs).fs.read p = fs.read p))) ∧
    (∀ (ob : List Nat) (mp op : PathT) (nh hs : Int) (fs : FS),
      mp.dropLast ≠ op.dropLast →
      (∀ g ∈ optimizeSidecars, fs.read (op.dropLast ++ [g]) = none) →
      (∀ g ∈ optimizeSidecars, op ≠ op.dropLast ++ [g]) →
      ((∀ f ∈ optimizeSidecars,
          (optimize ⟨true, .ok (), .ok ob⟩ mp op nh hs fs).fs.read (op.dropLast ++ [f]) =
            fs.read (mp.dropLast ++ [f])) ∧
       (∀ p, (∀ f ∈ optimizeSidecars, p ≠ op.dropLast ++ [f]) → p ≠ op →
          (optimize ⟨true, .ok (), .ok ob⟩ mp op nh hs fs).fs.read p = fs.read p))) := by
  constructor
  · intro qb md od fs hsd hfresh hm
    constructor
    · intro f hf
      rw [quantize_success_read_sidecar qb md od fs f hsd hf hm, hfresh f hf]
      cases fs.read (md ++ [f]) <;> rfl
    · intro p hpm hpq
      rw [quantize_success_fs qb md od fs hm,
        copySidecars_read_outside _ _ _ _ hpm,
        FS.read_write_ne _ _ hpq, FS.read_mkdirAll]
  · intro ob mp op nh hs fs hsd hfresh hprim
    constructor
    · intro f hf
      rw [optimize_success_read_sidecar ob mp op nh hs fs f hsd hf (hprim f hf),
        hfresh f hf]
      cases fs.read (mp.dropLast ++ [f]) <;> rfl
    · intro p hpm hpq
      rw [optimize_success_fs ob mp op nh hs fs,
        copySidecars_read_outside _ _ _ _ hpm,
        FS.read_write_ne _ _ hpq, FS.read_mkdirAll]

/-- C4 witness: a quantize run from directory a to directory b, with
`model.onnx` and `config.json` present in a and b initially empty:
`config.json` is copied byte-identically, and an unrelated path is
untouched. -/
theorem c4_witness :
    ((["a"] : PathT) ≠ ["b"]) ∧
    (∀ g ∈ quantizeSidecars,
      FS.read ⟨[(["a", "model.onnx"], [1]), (["a", "config.json"], [2])], []⟩ (["b"] ++ [g]) =
        none) ∧
    ((FS.read ⟨[(["a", "model.onnx"], [1]), (["a", "config.json"], [2])], []⟩
        (["a"] ++ ["model.onnx"])).isSome = true) ∧
    (quantize ⟨true, .ok [9]⟩ ["a"] ["b"]
        ⟨[(["a", "model.onnx"], [1]), (["a", "config.json"], [2])], []⟩).fs.read
        (["b"] ++ ["config.json"]) =
      FS.read ⟨[(["a", "model.onnx"], [1]), (["a", "config.json"], [2])], []⟩
        (["a"] ++ ["config.json"]) ∧
    (quantize ⟨true, .ok [9]⟩ ["a"] ["b"]
        ⟨[(["a", "model.onnx"], [1]), (["a", "config.json"], [2])], []⟩).fs.read
        (["a"] ++ ["model.onnx"]) =
      FS.read ⟨[(["a", "model.onnx"], [1]), (["a", "config.json"], [2])], []⟩
        (["a"] ++ ["model.onnx"]) :=
  ⟨by decide, by decide, by decide,
   (c4_sidecar_propagation.1 [9] ["a"] ["b"] _ (by decide) (by decide) (by decide)).1
     "config.json" (by decide),
   (c4_sidecar_propagation.1 [9] ["a"] ["b"] _ (by decide) (by decide) (by decide)).2
     (["a"] ++ ["model.onnx"]) (by decide) (by decide)⟩

/-- C5: an exception raised by any delegated external-library call —
at every failure site of every stage: Download's model download,
tokenizer download, model save and tokenizer save; Export's export
call; Optimize's optimization and save; Quantize's quantization;
Verify's session load, tokenizer load, tokenization and inference — is
caught at the stage boundary and reported as a terminal record whose
`error` value is the exception message, with exit status 1; files
written before the exception are retained (the saving-tokenizer failure
of Download keeps the model files already saved, and across all five
stages every file present before the run is still present after it —
written as a Boolean implication, so no stage ever deletes a file). -/
theorem c5_exception_boundary :
    (∀ (lt : Except String Unit) sm st e mn cd fs,
      (download ⟨true, .error e, lt, sm, st⟩ mn cd fs).records.getLast? = some (errRec e) ∧
      (download ⟨true, .error e, lt, sm, st⟩ mn cd fs).exitCode = 1) ∧
    (∀ (sm st : Except String (List (String × List Nat))) e mn cd fs,
      (download ⟨true, .ok (), .error e, sm, st⟩ mn cd fs).records.getLast? =
        some (errRec e) ∧
      (download ⟨true, .ok (), .error e, sm, st⟩ mn cd fs).exitCode = 1) ∧
    (∀ (st : Except String (List (String × List Nat))) e mn cd fs,
      (download ⟨true, .ok (), .ok (), .error e, st⟩ mn cd fs).records.getLast? =
        some (errRec e) ∧
      (download ⟨true, .ok (), .ok (), .error e, st⟩ mn cd fs).exitCode = 1) ∧
    (∀ mf e mn cd fs,
      download ⟨true, .ok (), .ok (), .ok mf, .error e⟩ mn cd fs =
        ⟨[stRec "downloading_model", stRec "downloading_tokenizer", stRec "saving_model",
          stRec "saving_tokenizer", errRec e], 1, (fs.mkdirAll cd).writeAll cd mf⟩) ∧
    (∀ e cd od fs,
      (convert ⟨true, .error e⟩ cd od fs).records.getLast? = some (errRec e) ∧
      (convert ⟨true, .error e⟩ cd od fs).exitCode = 1) ∧
    (∀ (sb : Except String (List Nat)) e mp op nh hs fs,
      (optimize ⟨true, .error e, sb⟩ mp op nh hs fs).records.getLast? = some (errRec e) ∧
      (optimize ⟨true, .error e, sb⟩ mp op nh hs fs).exitCode = 1) ∧
    (∀ e mp op nh hs fs,
      optimize ⟨true, .ok (), .error e⟩ mp op nh hs fs =
        ⟨[stRec "loading_model", stRec "optimizing", stRec "saving", errRec e], 1,
         fs.mkdirAll op.dropLast⟩) ∧
    (∀ e md od (fs0 : FS) (mb : List Nat),
      quantize ⟨true, .error e⟩ md od (fs0.write (md ++ ["model.onnx"]) mb) =
        ⟨[stRec "loading_model", stRec "quantizing", errRec e], 1,
         (fs0.write (md ++ ["model.onnx"]) mb).mkdirAll od⟩) ∧
    (∀ (s2 s3 : Except String Unit) (s4 : Except String (List Nat × Rat × Rat)) e mp tp t fs,
      (verify ⟨true, true, .error e, s2, s3, s4⟩ mp tp t fs).records.getLast? =
        some (errRec e) ∧
      (verify ⟨true, true, .error e, s2, s3, s4⟩ mp tp t fs).exitCode = 1) ∧
    (∀ (s3 : Except String Unit) (s4 : Except String (List Nat × Rat × Rat)) e mp tp t fs,
      (verify ⟨true, true, .ok (), .error e, s3, s4⟩ mp tp t fs).records.getLast? =
        some (errRec e) ∧
      (verify ⟨true, true, .ok (), .error e, s3, s4⟩ mp tp t fs).exitCode = 1) ∧
    (∀ (s4 : Except String (List Nat × Rat × Rat)) e mp tp t fs,
      (verify ⟨true, true, .ok (), .ok (), .error e, s4⟩ mp tp t fs).records.getLast? =
        some (errRec e) ∧
      (verify ⟨true, true, .ok (), .ok (), .error e, s4⟩ mp tp t fs).exitCode = 1) ∧
    (∀ e mp tp t fs,
      (verify ⟨true, true, .ok (), .ok (), .ok (), .error e⟩ mp tp t fs).records.getLast? =
        some (errRec e) ∧
      (verify ⟨true, true, .ok (), .ok (), .ok (), .error e⟩ mp tp t fs).exitCode = 1) ∧
    (∀ env mn cd fs p,
      (!(fs.read p).isSome || ((download env mn cd fs).fs.read p).isSome) = true) ∧
    (∀ env cd od fs p,
      (!(fs.read p).isSome || ((convert env cd od fs).fs.read p).isSome) = true) ∧
    (∀ env mp op nh hs fs p,
      (!(fs.read p).isSome || ((optimize env mp op nh hs fs).fs.read p).isSome) = true) ∧
    (∀ env md od fs p,
      (!(fs.read p).isSome || ((quantize env md od fs).fs.read p).isSome) = true) ∧
    (∀ env mp tp t fs p,
      (!(fs.read p).isSome || ((verify env mp tp t fs).fs.read p).isSome) = true) := by
  refine ⟨fun _ _ _ _ _ _ _ => ⟨rfl, rfl⟩, fun _ _ _ _ _ _ => ⟨rfl, rfl⟩,
    fun _ _ _ _ _ => ⟨rfl, rfl⟩, fun _ _ _ _ _ => rfl,
    fun _ _ _ _ => ⟨rfl, rfl⟩, fun _ _ _ _ _ _ _ => ⟨rfl, rfl⟩,
    fun _ _ _ _ _ _ => rfl, ?_, fun _ _ _ _ _ _ _ _ => ⟨rfl, rfl⟩,
    fun _ _ _ _ _ _ _ => ⟨rfl, rfl⟩, fun _ _ _ _ _ _ => ⟨rfl, rfl⟩,
    fun _ _ _ _ _ => ⟨rfl, rfl⟩, ?_, ?_, ?_, ?_, ?_⟩
  · intro e md od fs0 mb
    have hm : ((fs0.write (md ++ ["model.onnx"]) mb).read (md ++ ["model.onnx"])).isSome =
        true := by
      rw [FS.read_write_self]
      rfl
    simp only [quantize, hm]
    rfl
  · intro env mn cd fs p
    cases hp : (fs.read p).isSome
    · rfl
    · simpa using download_preserves_files env mn cd fs p hp
  · intro env cd od fs p
    cases hp : (fs.read p).isSome
    · rfl
    · simpa using convert_preserves_files env cd od fs p hp
  · intro env mp op nh hs fs p
    cases hp : (fs.read p).isSome
    · rfl
    · simpa using optimize_preserves_files env mp op nh hs fs p hp
  · intro env md od fs p
    cases hp : (fs.read p).isSome
    · rfl
    · simpa using quantize_preserves_files env md od fs p hp
  · intro env mp tp t fs p
    cases hp : (fs.read p).isSome
    · rfl
    · simpa using verify_preserves_files env mp tp t fs p hp

/-- C6 counterexample: a successful Export (convert) run whose library
call writes nothing, over an input directory containing the manifest
file `config.json`, does not copy it into the output directory —
`convert.py` has no sidecar copy loop, refuting the claim that every
stage consuming a prior stage's output applies the propagation rule. -/
theorem c6_counterexample :
    FS.read ⟨[(["i", "config.json"], [7])], []⟩ (["i"] ++ ["config.json"]) = some [7] ∧
    (convert ⟨true, Except.ok []⟩ ["i"] ["o"] ⟨[(["i", "config.json"], [7])], []⟩).exitCode = 0 ∧
    (convert ⟨true, Except.ok []⟩ ["i"] ["o"] ⟨[(["i", "config.json"], [7])], []⟩).fs.read
      (["o"] ++ ["config.json"]) = none := by decide

/-- C6 (amended): only the Optimize and Quantize stages apply the
sidecar propagation rule, and their hardcoded manifests are equal as
sets; the Export stage (convert) performs no sidecar copying of its
own — on a successful run its output directory gains only the files the
export library itself writes, so a manifest filename not among the
library's outputs is read unchanged in the output directory — while
Optimize and Quantize do copy every manifest file present in their
input directory into their output directory. -/
theorem c6_sidecar_uniformity :
    (∀ f, f ∈ optimizeSidecars ↔ f ∈ quantizeSidecars) ∧
    (∀ (ef : List (String × List Nat)) cd od fs (f : String), (∀ x ∈ ef, f ≠ x.1) →
      (convert ⟨true, .ok ef⟩ cd od fs).fs.read (od ++ [f]) = fs.read (od ++ [f])) ∧
    (∀ (qb : List Nat) md od fs (f : String) b, md ≠ od → f ∈ quantizeSidecars →
      fs.read (md ++ [f]) = some b → (fs.read (md ++ ["model.onnx"])).isSome = true →
      (quantize ⟨true, .ok qb⟩ md od fs).fs.read (od ++ [f]) = some b) ∧
    (∀ (ob : List Nat) mp op nh hs fs (f : String) b,
      mp.dropLast ≠ op.dropLast → f ∈ optimizeSidecars → op ≠ op.dropLast ++ [f] →
      fs.read (mp.dropLast ++ [f]) = some b →
      (optimize ⟨true, .ok (), .ok ob⟩ mp op nh hs fs).fs.read (op.dropLast ++ [f]) =
        some b) := by
  have hperm : List.Perm optimizeSidecars quantizeSidecars := by decide
  refine ⟨fun f => hperm.mem_iff, ?_, ?_, ?_⟩
  · intro ef cd od fs f hf
    show (FS.writeAll _ od ef).read (od ++ [f]) = fs.read (od ++ [f])
    rw [FS.read_writeAll_outside ef od _
      (fun x hx heq => hf x hx (append_singleton_inj heq).2)]
    rfl
  · intro qb md od fs f b hsd hf hsrc hm
    rw [quantize_success_read_sidecar qb md od fs f hsd hf hm, hsrc]
    rfl
  · intro ob mp op nh hs fs f b hsd hf hop hsrc
    rw [optimize_success_read_sidecar ob mp op nh hs fs f hsd hf hop, hsrc]
    rfl

/-- C6 amended-claim witness: concrete instantiations of all three
conditional conjuncts. -/
theorem c6_witness :
    ((∀ x ∈ ([("model.onnx", [5])] : List (String × List Nat)), "config.json" ≠ x.1) ∧
      (convert ⟨true, .ok [("model.onnx", [5])]⟩ ["i"] ["o"]
          ⟨[(["i", "config.json"], [7])], []⟩).fs.read (["o"] ++ ["config.json"]) =
        FS.read ⟨[(["i", "config.json"], [7])], []⟩ (["o"] ++ ["config.json"])) ∧
    ((quantize ⟨true, .ok [9]⟩ ["a"] ["b"]
        ⟨[(["a", "model.onnx"], [1]), (["a", "vocab.txt"], [3])], []⟩).fs.read
        (["b"] ++ ["vocab.txt"]) = some [3]) ∧
    ((optimize ⟨true, .ok (), .ok [8]⟩ ["e", "model.onnx"] ["p", "model.onnx"] 12 384
        ⟨[(["e", "tokenizer.json"], [4])], []⟩).fs.read
        ((["p", "model.onnx"] : PathT).dropLast ++ ["tokenizer.json"]) = some [4]) :=
  ⟨⟨by decide,
    c6_sidecar_uniformity.2.1 [("model.onnx", [5])] ["i"] ["o"] _ "config.json" (by decide)⟩,
   c6_sidecar_uniformity.2.2.1 [9] ["a"] ["b"] _ "vocab.txt" [3]
     (by decide) (by decide) (by decide) (by decide),
   c6_sidecar_uniformity.2.2.2 [8] ["e", "model.onnx"] ["p", "model.onnx"] 12 384 _
     "tokenizer.json" [4] (by decide) (by decide) (by decide) (by decide)⟩

/-- C7: on a successful run Download emits downloading_model,
downloading_tokenizer, saving_model, saving_tokenizer in that order
followed by the terminal complete record carrying the cache directory,
and Optimize emits loading_model, optimizing, saving in that order
followed by the terminal complete record carrying the output path. -/
theorem c7_success_record_order :
    (∀ (mf tf : List (String × List Nat)) mn cd fs,
      (download ⟨true, .ok (), .ok (), .ok mf, .ok tf⟩ mn cd fs).records =
        [stRec "downloading_model", stRec "downloading_tokenizer", stRec "saving_model",
         stRec "saving_tokenizer",
         [("status", JVal.str "complete"), ("cache_dir", JVal.path cd)]]) ∧
    (∀ (ob : List Nat) mp op nh hs fs,
      (optimize ⟨true, .ok (), .ok ob⟩ mp op nh hs fs).records =
        [stRec "loading_model", stRec "optimizing", stRec "saving",
         [("status", JVal.str "complete"), ("output_path", JVal.path op)]]) :=
  ⟨fun _ _ _ _ _ => rfl, fun _ _ _ _ _ _ => rfl⟩

/-- C8 counterexample: nothing in `quantize.py` forbids the caller from
passing the input directory as the output directory, and in that case a
successful run creates `model_quantized.onnx` inside the input
directory, refuting the claim over all argument values. -/
theorem c8_counterexample :
    leads ["d"] ["d", "model_quantized.onnx"] ∧
    FS.read ⟨[(["d", "model.onnx"], [1])], []⟩ ["d", "model_quantized.onnx"] = none ∧
    (quantize ⟨true, Except.ok [2]⟩ ["d"] ["d"]
        ⟨[(["d", "model.onnx"], [1])], []⟩).fs.read
      ["d", "model_quantized.onnx"] = some [2] := by decide

/-- C8 (amended): provided the stage's input directory is not an
initial segment of its output directory — the disjointness the driver
convention guarantees — no file inside the input directory is created,
modified or deleted by Export, Optimize or Quantize: every path
strictly inside the input directory reads identically before and after
the run, over all environments including failures; Verify never touches
the filesystem at all; Download has no input directory. -/
theorem c8_input_dir_readonly :
    (∀ (env : ConvertEnv) cd od fs p, ¬ leads cd od → leads cd p → p ≠ cd →
      (convert env cd od fs).fs.read p = fs.read p) ∧
    (∀ (env : OptimizeEnv) mp op nh hs fs p,
      ¬ leads mp.dropLast op.dropLast → leads mp.dropLast p → p ≠ mp.dropLast →
      (optimize env mp op nh hs fs).fs.read p = fs.read p) ∧
    (∀ (env : QuantizeEnv) md od fs p, ¬ leads md od → leads md p → p ≠ md →
      (quantize env md od fs).fs.read p = fs.read p) ∧
    (∀ (env : VerifyEnv) mp tp t fs, (verify env mp tp t fs).fs = fs) := by
  refine ⟨?_, ?_, ?_, ?_⟩
  · intro env cd od fs p hno hp hne
    obtain ⟨a, b⟩ := env
    cases a
    · rfl
    · cases b with
      | error e => rfl
      | ok ef =>
          show (FS.writeAll _ od ef).read p = fs.read p
          rw [FS.read_writeAll_outside ef od p (fun x _ => leads_ne_concat hno hp hne)]
          rfl
  · intro env mp op nh hs fs p hno hp hne
    obtain ⟨a, b, c⟩ := env
    cases a
    · rfl
    · cases b with
      | error e => rfl
      | ok u =>
          cases c with
          | error e => rfl
          | ok ob =>
              show (copySidecars optimizeSidecars mp.dropLast op.dropLast _).read p = fs.read p
              rw [copySidecars_read_outside _ _ _ p (fun f _ => leads_ne_concat hno hp hne),
                FS.read_write_ne _ _ (leads_ne_path hno hp hne)]
              rfl
  · intro env md od fs p hno hp hne
    obtain ⟨a, q⟩ := env
    cases a
    · rfl
    · cases hm : (fs.read (md ++ ["model.onnx"])).isSome
      · simp only [quantize, hm]
        rfl
      · cases q with
        | error e =>
            simp only [quantize, hm]
            rfl
        | ok qb =>
            rw [quantize_success_fs qb md od fs hm,
              copySidecars_read_outside _ _ _ p (fun f _ => leads_ne_concat hno hp hne),
              FS.read_write_ne _ _ (leads_ne_concat hno hp hne)]
            rfl
  · intro env mp tp t fs
    obtain ⟨a, b, c, d, e, f⟩ := env
    cases a <;> cases b <;> cases c <;> cases d <;> cases e <;> cases f <;> rfl

/-- C8 amended-claim witness: a quantize run from directory a to the
disjoint directory b leaves a file inside directory a unchanged. -/
theorem c8_witness :
    (¬ leads ["a"] ["b"]) ∧ leads ["a"] ["a", "model.onnx"] ∧
    ((["a", "model.onnx"] : PathT) ≠ ["a"]) ∧
    (quantize ⟨true, Except.ok [2]⟩ ["a"] ["b"]
        ⟨[(["a", "model.onnx"], [1])], []⟩).fs.read ["a", "model.onnx"] =
      FS.read ⟨[(["a", "model.onnx"], [1])], []⟩ ["a", "model.onnx"] :=
  ⟨by decide, by decide, by decide,
   c8_input_dir_readonly.2.2.1 ⟨true, Except.ok [2]⟩ ["a"] ["b"]
     ⟨[(["a", "model.onnx"], [1])], []⟩ ["a", "model.onnx"]
     (by decide) (by decide) (by decide)⟩

/-- C10: when Verify is invoked without a probe-text argument the probe
text is exactly "This is a test", and every successful run's terminal
record echoes the probe text used under test_text together with
output_shape, output_mean and output_std. -/
theorem c10_verify_probe_text :
    (∀ (sh : List Nat) (m sd : Rat) mp tp fs,
      (verify ⟨true, true, .ok (), .ok (), .ok (), .ok (sh, m, sd)⟩ mp tp none
          fs).records.getLast? =
        some [("status", JVal.str "complete"), ("test_text", JVal.str "This is a test"),
          ("output_shape", JVal.natList sh), ("output_mean", JVal.rat m),
          ("output_std", JVal.rat sd)]) ∧
    (∀ (sh : List Nat) (m sd : Rat) mp tp t fs,
      (verify ⟨true, true, .ok (), .ok (), .ok (), .ok (sh, m, sd)⟩ mp tp t
          fs).records.getLast? =
        some [("status", JVal.str "complete"),
          ("test_text", JVal.str (t.getD "This is a test")),
          ("output_shape", JVal.natList sh), ("output_mean", JVal.rat m),
          ("output_std", JVal.rat sd)]) :=
  ⟨fun _ _ _ _ _ _ => rfl, fun _ _ _ _ _ _ _ => rfl⟩
